import Mathlib

/-!
Verification of the `mry` mock-dispatch engine against its specification.

The development shallowly embeds the engine's data model and operations:
`Mock`, its rule list and call log, the dispatch routine
`record_call_and_find_mock_output` (src/mry/src/mock/mod.rs), the assertion
routine `assert_called` / `handle_assert_called` (same file), the constant
behavior registration `returns` (same file), the call-count predicate
`Times.contains` (src/mry/src/mock_locator/times.rs), and the composite
tuple matchers generated by `create_matchers` (src/mry_macros/src/create_matchers.rs).

Rust panics are embedded as `Except.error` values carrying the same data the
panic message renders (the mock's name, the rule dump, the log dump), and
the interior mutability of `Mock` (the `Mutex`-guarded log, the `RwLock`
cursor inside a `Const` behavior) is embedded as explicit state passing:
every stateful operation returns its result together with the updated `Mock`.
-/

set_option autoImplicit false

namespace Mry

/-- Modelled from the spec (§3, §4.1): the `Matcher<I>` type is not among the
provided sources; per the spec it is polymorphic over `Any` (matches
everything), `Never` (matches nothing), `Eq(value)` (structural equality
against a captured value), and `Predicate(fn(&I) -> bool)`. -/
inductive Matcher (I : Type) where
  | Any : Matcher I
  | Never : Matcher I
  | Eq (v : I) : Matcher I
  | Pred (p : I → Bool) : Matcher I

/-- Modelled from the spec (§4.1): `Any` → true, `Never` → false,
`Eq(v)` → value equality with `v`, `Predicate(p)` → `p(call_args)`. -/
def Matcher.matches {I : Type} [DecidableEq I] : Matcher I → I → Bool
  | .Any, _ => true
  | .Never, _ => false
  | .Eq v, input => decide (input = v)
  | .Pred p, input => p input

/-- Modelled from the spec (§3, §9): the backing sequence of a `Const`
behavior is "an explicit cursor over a possibly-unbounded generator"
(`RwLock<Box<dyn Iterator>>` at the use site in mock/mod.rs). The generator
is a map from positions to optional elements (`none` = exhausted at that
point) together with the cursor position. -/
structure ConstSeq (O : Type) where
  seq : Nat → Option O
  cursor : Nat

/-- Modelled from the spec (§4.2): advancing the cursor under exclusive
access — read the element at the cursor and step the cursor. -/
def ConstSeq.next {O : Type} (c : ConstSeq O) : Option O × ConstSeq O :=
  (c.seq c.cursor, { c with cursor := c.cursor + 1 })

/-- The behavior variants. `Function` is in src/mry/src/behavior.rs; the
`Const` and `CallsRealImpl` variants are referenced by
src/mry/src/mock/mod.rs (`Behavior::Const`, `Behavior::CallsRealImpl`) and
their semantics are modelled from the spec (§4.2). -/
inductive Behavior (I O : Type) where
  | Function (f : I → O) : Behavior I O
  | Const (c : ConstSeq O) : Behavior I O
  | CallsRealImpl : Behavior I O

/-- `Rule` is the `(Matcher, Behavior)` pair (spec §3); its struct literal
shape `Rule { matcher, behavior }` appears in src/mry/src/mock/mod.rs. -/
structure Rule (I O : Type) where
  matcher : Matcher I
  behavior : Behavior I O

/-- The `Output` enum matched on by the dispatch loop in
src/mry/src/mock/mod.rs: `Found`, `NotMatches`, `CallsRealImpl`. -/
inductive Output (O : Type) where
  | Found (output : O) : Output O
  | NotMatches : Output O
  | CallsRealImpl : Output O

/-- Modelled from the spec (§4.2–§4.3): `Rule::called` is not among the
provided sources. Per the spec: if the matcher rejects the call the rule
reports `NotMatches`; if it accepts, the behavior is invoked — `Function`
produces a fresh value, `Const` takes the next element under the cursor
(failing fatally when the sequence is exhausted), `CallsRealImpl` signals
deferral. The updated rule (with an advanced cursor for `Const`) is
returned alongside. -/
def Rule.called {I O : Type} [DecidableEq I] (rule : Rule I O) (input : I) :
    Except String (Output O × Rule I O) :=
  if rule.matcher.matches input then
    match rule.behavior with
    | .Function f => .ok (.Found (f input), rule)
    | .Const c =>
      match c.next with
      | (some v, c') => .ok (.Found v, { rule with behavior := .Const c' })
      | (none, _) => .error "Const sequence exhausted"
    | .CallsRealImpl => .ok (.CallsRealImpl, rule)
  else
    .ok (.NotMatches, rule)

/-- The `Mock<I, O>` struct of src/mry/src/mock/mod.rs: a display name, the
`Mutex`-guarded call log (embedded as a plain list, state-passed), and the
ordered rule list. -/
structure Mock (I O : Type) where
  name : String
  logs : List I
  rules : List (Rule I O)

/-- `Mock::new` from src/mry/src/mock/mod.rs: empty log, empty rules. -/
def Mock.new {I O : Type} (name : String) : Mock I O :=
  { name := name, logs := [], rules := [] }

/-- The possible fatal outcomes (Rust panics) of the engine, carrying the
data their panic messages render: `MockNotFound` corresponds to
`panic!("mock not found for {}\n{:?}", self.name, self.rules)` and
`NotCalled` to `panic!("{} was not called\n{:?}", self.name, *self.logs.lock())`
in src/mry/src/mock/mod.rs; `ConstExhausted` to the exhausted-sequence
failure of spec §4.2/§7. -/
inductive MockError (I O : Type) where
  | MockNotFound (name : String) (rules : List (Rule I O)) : MockError I O
  | NotCalled (name : String) (logs : List I) : MockError I O
  | ConstExhausted (name : String) : MockError I O

/-- Outcome of scanning the rule list once, as the `for` loop of
`record_call_and_find_mock_output` does: `Done out rules` is an early
`return` (`Some(output)` or `None`) together with the rule list after the
scan (cursor possibly advanced in the matched rule); `Exhausted` is the
fatal exhausted-`Const` path; `NoMatch` means the loop fell through. -/
inductive ScanResult (I O : Type) where
  | Done (out : Option O) (rules : List (Rule I O)) : ScanResult I O
  | Exhausted : ScanResult I O
  | NoMatch : ScanResult I O

/-- The rule-scanning loop of `record_call_and_find_mock_output`
(src/mry/src/mock/mod.rs): rules are consulted strictly in order; `Found`
returns `Some`, `CallsRealImpl` returns `None`, `NotMatches` continues. -/
def scanRules {I O : Type} [DecidableEq I] (input : I) :
    List (Rule I O) → ScanResult I O
  | [] => .NoMatch
  | rule :: rest =>
    match rule.called input with
    | .error _ => .Exhausted
    | .ok (.Found output, rule') => .Done (some output) (rule' :: rest)
    | .ok (.CallsRealImpl, rule') => .Done none (rule' :: rest)
    | .ok (.NotMatches, rule') =>
      match scanRules input rest with
      | .Done out rules => .Done out (rule' :: rules)
      | .Exhausted => .Exhausted
      | .NoMatch => .NoMatch

/-- `record_call_and_find_mock_output` from src/mry/src/mock/mod.rs:
push the (cloned) input onto the log, then scan the rules in order; if the
loop falls through, panic with the mock's name and the rule dump. The
updated mock is returned alongside (the log has grown on every path; on the
`NoMatch` path no rule matched, so no cursor was advanced and the rules are
unchanged). -/
def record_call_and_find_mock_output {I O : Type} [DecidableEq I]
    (m : Mock I O) (input : I) :
    Except (MockError I O) (Option O) × Mock I O :=
  let logs := m.logs ++ [input]
  match scanRules input m.rules with
  | .Done out rules => (.ok out, { m with logs := logs, rules := rules })
  | .Exhausted => (.error (.ConstExhausted m.name), { m with logs := logs })
  | .NoMatch => (.error (.MockNotFound m.name m.rules), { m with logs := logs })

/-- `returns_with` from src/mry/src/mock/mod.rs: append a rule. -/
def returns_with {I O : Type} (m : Mock I O) (matcher : Matcher I)
    (behavior : Behavior I O) : Mock I O :=
  { m with rules := m.rules ++ [{ matcher := matcher, behavior := behavior }] }

/-- `calls_real_impl` from src/mry/src/mock/mod.rs: append a rule whose
behavior is `Behavior::CallsRealImpl`. -/
def calls_real_impl {I O : Type} (m : Mock I O) (matcher : Matcher I) :
    Mock I O :=
  { m with rules := m.rules ++ [{ matcher := matcher, behavior := .CallsRealImpl }] }

/-- The backing sequence built by `returns`: `std::iter::repeat(ret)`, the
infinite repetition of one value, with the cursor at the start. -/
def repeatSeq {O : Type} (ret : O) : ConstSeq O :=
  { seq := fun _ => some ret, cursor := 0 }

/-- `MockObjectReturns::returns` from src/mry/src/mock/mod.rs:
`returns_with(matcher, Behavior::Const(RwLock::new(Box::new(repeat(ret)))))`. -/
def returns {I O : Type} (m : Mock I O) (matcher : Matcher I) (ret : O) :
    Mock I O :=
  returns_with m matcher (.Const (repeatSeq ret))

/-- Modelled from the spec (§3): `Logs::filter_matches` is not among the
provided sources; per the spec, filter-by-matcher "returns a new ordered
sequence of exactly the elements the matcher accepts, preserving relative
order". -/
def filter_matches {I : Type} [DecidableEq I] (logs : List I)
    (matcher : Matcher I) : List I :=
  logs.filter (fun input => matcher.matches input)

/-- `MockResult<I>` (spec §3, struct literal in src/mry/src/mock/mod.rs
tests): mock name plus the matched subsequence of the log. -/
structure MockResult (I : Type) where
  name : String
  logs : List I

/-- `handle_assert_called` from src/mry/src/mock/mod.rs: lock the log,
filter it through the matcher; if the filtered result is empty, run the
failure callback (which panics in `assert_called`). Embedded with the
panic reified as the error value the caller installs. -/
def handle_assert_called {I O : Type} [DecidableEq I] (m : Mock I O)
    (matcher : Matcher I) : Except (MockError I O) (List I) :=
  let logs := filter_matches m.logs matcher
  if logs.isEmpty then .error (.NotCalled m.name m.logs) else .ok logs

/-- `assert_called` from src/mry/src/mock/mod.rs: runs
`handle_assert_called` with a panic callback carrying the mock's name and
the full unfiltered log, then wraps the filtered log in a `MockResult`.
It takes `&self` and only reads the log mutex, so the returned mock state
is the input state. -/
def assert_called {I O : Type} [DecidableEq I] (m : Mock I O)
    (matcher : Matcher I) :
    Except (MockError I O) (MockResult I) × Mock I O :=
  (match handle_assert_called m matcher with
   | .error e => .error e
   | .ok logs => .ok { name := m.name, logs := logs }, m)

/-- Iterated dispatch of the same input: `dispatchIter m input n` performs
`n + 1` calls and yields the result of the last one with the mock state
after it. -/
def dispatchIter {I O : Type} [DecidableEq I] (m : Mock I O) (input : I) :
    Nat → Except (MockError I O) (Option O) × Mock I O
  | 0 => record_call_and_find_mock_output m input
  | n + 1 =>
    record_call_and_find_mock_output (dispatchIter m input n).2 input

/-- Iterated dispatch of a list of inputs (results discarded), giving the
mock state after all the calls. -/
def dispatchList {I O : Type} [DecidableEq I] (m : Mock I O) :
    List I → Mock I O
  | [] => m
  | input :: rest =>
    dispatchList (record_call_and_find_mock_output m input).2 rest

/-! Helper lemmas about the scanning loop. -/

theorem Rule.called_of_reject {I O : Type} [DecidableEq I] (rule : Rule I O)
    (input : I) (h : rule.matcher.matches input = false) :
    rule.called input = .ok (.NotMatches, rule) := by
  simp [Rule.called, h]

theorem Rule.called_ne_notMatches {I O : Type} [DecidableEq I]
    (rule : Rule I O) (input : I) (h : rule.matcher.matches input = true)
    (rule' : Rule I O) : rule.called input ≠ .ok (.NotMatches, rule') := by
  simp only [Rule.called, h, if_true]
  cases rule.behavior with
  | Function f => simp
  | Const c =>
    cases hc : c.seq c.cursor <;> simp [ConstSeq.next, hc]
  | CallsRealImpl => simp

theorem scanRules_append_reject {I O : Type} [DecidableEq I] (input : I)
    (pre rest : List (Rule I O))
    (h : ∀ rule ∈ pre, rule.matcher.matches input = false) :
    scanRules input (pre ++ rest) =
      match scanRules input rest with
      | .Done out rules => .Done out (pre ++ rules)
      | .Exhausted => .Exhausted
      | .NoMatch => .NoMatch := by
  induction pre with
  | nil =>
    cases hr : scanRules input rest <;> simp [hr]
  | cons r pre ih =>
    have hr : r.matcher.matches input = false := h r (by simp)
    have ih' := ih (fun rule hrule => h rule (by simp [hrule]))
    have hcalled := Rule.called_of_reject r input hr
    cases hrest : scanRules input rest <;>
      rw [hrest] at ih' <;>
      simp [scanRules, hcalled, ih']

theorem scanRules_all_reject {I O : Type} [DecidableEq I] (input : I)
    (rules : List (Rule I O))
    (h : ∀ rule ∈ rules, rule.matcher.matches input = false) :
    scanRules input rules = .NoMatch := by
  have := scanRules_append_reject input rules [] h
  simpa [scanRules] using this

theorem dispatch_first_matched {I O : Type} [DecidableEq I]
    (name : String) (logs : List I) (pre : List (Rule I O)) (r : Rule I O)
    (post : List (Rule I O)) (input : I)
    (hpre : ∀ rule ∈ pre, rule.matcher.matches input = false)
    (hr : r.matcher.matches input = true) :
    (record_call_and_find_mock_output (Mock.mk name logs (pre ++ r :: post)) input).1 =
      (record_call_and_find_mock_output (Mock.mk name logs [r]) input).1 := by
  have hscan := scanRules_append_reject input pre (r :: post) hpre
  cases hc : r.called input with
  | error e =>
    have h1 : scanRules input (r :: post) = .Exhausted := by
      simp [scanRules, hc]
    have h2 : scanRules input ([r] : List (Rule I O)) = .Exhausted := by
      simp [scanRules, hc]
    rw [h1] at hscan
    simp [record_call_and_find_mock_output, hscan, h2]
  | ok p =>
    obtain ⟨o, rule'⟩ := p
    cases o with
    | Found v =>
      have h1 : scanRules input (r :: post) = .Done (some v) (rule' :: post) := by
        simp [scanRules, hc]
      have h2 : scanRules input ([r] : List (Rule I O)) = .Done (some v) [rule'] := by
        simp [scanRules, hc]
      rw [h1] at hscan
      simp [record_call_and_find_mock_output, hscan, h2]
    | NotMatches => exact absurd hc (Rule.called_ne_notMatches r input hr rule')
    | CallsRealImpl =>
      have h1 : scanRules input (r :: post) = .Done none (rule' :: post) := by
        simp [scanRules, hc]
      have h2 : scanRules input ([r] : List (Rule I O)) = .Done none [rule'] := by
        simp [scanRules, hc]
      rw [h1] at hscan
      simp [record_call_and_find_mock_output, hscan, h2]

/-- Claim C1: dispatch acts on the first rule, in registration order, whose
matcher accepts the input. If every rule of `pre` rejects the input and `r`
accepts it, then the dispatch result on rule list `pre ++ r :: post` equals
the dispatch result on the single-rule list `[r]` — the rules registered
after `r` are never consulted — and therefore the result is the same for
any two suffixes `post`, `post'` (in particular, when two rules both match,
the earlier-registered one determines the result). -/
theorem C1_first_rule_in_order_wins {I O : Type} [DecidableEq I]
    (name : String) (logs : List I) (pre : List (Rule I O)) (r : Rule I O)
    (post post' : List (Rule I O)) (input : I)
    (hpre : ∀ rule ∈ pre, rule.matcher.matches input = false)
    (hr : r.matcher.matches input = true) :
    (record_call_and_find_mock_output (Mock.mk name logs (pre ++ r :: post)) input).1 =
      (record_call_and_find_mock_output (Mock.mk name logs [r]) input).1 ∧
    (record_call_and_find_mock_output (Mock.mk name logs (pre ++ r :: post)) input).1 =
      (record_call_and_find_mock_output (Mock.mk name logs (pre ++ r :: post')) input).1 :=
  ⟨dispatch_first_matched name logs pre r post input hpre hr,
   (dispatch_first_matched name logs pre r post input hpre hr).trans
     (dispatch_first_matched name logs pre r post' input hpre hr).symm⟩

/-- Witness for C1, following the spec's example: rule A matches `3` and
produces `"x"`, rule B also matches `3` and produces `"y"`; dispatching `3`
gives the same result as with rule A alone, namely `"x"`. -/
theorem C1_first_rule_in_order_wins_witness :
    ((Matcher.Eq 3).matches 3 = true) ∧
    ((record_call_and_find_mock_output
        (Mock.mk "a" []
          ([] ++ Rule.mk (Matcher.Eq 3) (Behavior.Function fun _ => "x") ::
            [Rule.mk (Matcher.Eq 3) (Behavior.Function fun _ => "y")])) 3).1 =
      (record_call_and_find_mock_output
        (Mock.mk "a" [] [Rule.mk (Matcher.Eq 3) (Behavior.Function fun _ => "x")]) 3).1 ∧
     (record_call_and_find_mock_output
        (Mock.mk "a" []
          ([] ++ Rule.mk (Matcher.Eq 3) (Behavior.Function fun _ => "x") ::
            [Rule.mk (Matcher.Eq 3) (Behavior.Function fun _ => "y")])) 3).1 =
      (record_call_and_find_mock_output
        (Mock.mk "a" []
          ([] ++ Rule.mk (Matcher.Eq 3) (Behavior.Function fun _ => "x") :: [])) 3).1) ∧
    ((record_call_and_find_mock_output
        (Mock.mk "a" []
          ([] ++ Rule.mk (Matcher.Eq 3) (Behavior.Function fun _ => "x") ::
            [Rule.mk (Matcher.Eq 3) (Behavior.Function fun _ => "y")])) 3).1 =
      .ok (some "x")) :=
  ⟨rfl,
   C1_first_rule_in_order_wins "a" [] []
     (Rule.mk (Matcher.Eq 3) (Behavior.Function fun _ => "x"))
     [Rule.mk (Matcher.Eq 3) (Behavior.Function fun _ => "y")] [] 3
     (by simp) rfl,
   rfl⟩

theorem logs_record_call {I O : Type} [DecidableEq I]
    (m : Mock I O) (input : I) :
    (record_call_and_find_mock_output m input).2.logs = m.logs ++ [input] := by
  cases h : scanRules input m.rules <;>
    simp [record_call_and_find_mock_output, h]

theorem name_record_call {I O : Type} [DecidableEq I]
    (m : Mock I O) (input : I) :
    (record_call_and_find_mock_output m input).2.name = m.name := by
  cases h : scanRules input m.rules <;>
    simp [record_call_and_find_mock_output, h]

/-- Claim C2: every dispatch appends exactly its input, once, at the end of
the call log, whatever the outcome of the rule scan (value produced,
deferral to the real implementation, exhausted sequence, or the
no-rule-matched failure); nothing else in the log changes. -/
theorem C2_dispatch_always_appends_call_to_log {I O : Type} [DecidableEq I]
    (m : Mock I O) (input : I) :
    (record_call_and_find_mock_output m input).2.logs = m.logs ++ [input] :=
  logs_record_call m input

/-- Claim C3: when no rule's matcher accepts the input (also when the rule
list is empty), dispatch fails instead of returning a value, and the
failure carries the mock's name together with the full ordered rule list
(the data rendered by `panic!("mock not found for {}\n{:?}", self.name,
self.rules)`); the call is still appended to the log. -/
theorem C3_unconfigured_call_fails {I O : Type} [DecidableEq I]
    (m : Mock I O) (input : I)
    (h : ∀ rule ∈ m.rules, rule.matcher.matches input = false) :
    record_call_and_find_mock_output m input =
      (.error (.MockNotFound m.name m.rules),
       { m with logs := m.logs ++ [input] }) := by
  simp [record_call_and_find_mock_output,
    scanRules_all_reject input m.rules h]

/-- Witness for C3, following the source test `mock_not_found_with_rules`:
two rules both matching only `3`, dispatched with `2`; the failure carries
the name `"a"` and both rules, and the log has grown by the call. -/
theorem C3_unconfigured_call_fails_witness :
    (∀ rule ∈ [Rule.mk (Matcher.Eq 3) (Behavior.Function fun n => n + 39),
               Rule.mk (Matcher.Eq 3) (Behavior.CallsRealImpl : Behavior Nat Nat)],
       rule.matcher.matches 2 = false) ∧
    record_call_and_find_mock_output
        (Mock.mk "a" []
          [Rule.mk (Matcher.Eq 3) (Behavior.Function fun n => n + 39),
           Rule.mk (Matcher.Eq 3) Behavior.CallsRealImpl]) 2 =
      (.error (.MockNotFound "a"
          [Rule.mk (Matcher.Eq 3) (Behavior.Function fun n => n + 39),
           Rule.mk (Matcher.Eq 3) Behavior.CallsRealImpl]),
       Mock.mk "a" [2]
          [Rule.mk (Matcher.Eq 3) (Behavior.Function fun n => n + 39),
           Rule.mk (Matcher.Eq 3) Behavior.CallsRealImpl]) := by
  have h : ∀ rule ∈ [Rule.mk (Matcher.Eq 3) (Behavior.Function fun n => n + 39),
               Rule.mk (Matcher.Eq 3) (Behavior.CallsRealImpl : Behavior Nat Nat)],
       rule.matcher.matches 2 = false := by
    intro rule hrule
    rcases List.mem_cons.mp hrule with h1 | hrule
    · subst h1; rfl
    rcases List.mem_cons.mp hrule with h1 | hrule
    · subst h1; rfl
    · cases hrule
  exact ⟨h, C3_unconfigured_call_fails _ 2 h⟩

/-- Claim C4: when the first rule (in registration order) whose matcher
accepts the input was registered via `calls_real_impl` (behavior
`CallsRealImpl`), dispatch returns `None` (defer to the real
implementation) without failing — an `ok` outcome, distinct by constructor
from the `MockNotFound` failure — and the call is still appended to the
log; the rule list is unchanged. -/
theorem C4_calls_real_impl_defers {I O : Type} [DecidableEq I]
    (name : String) (logs : List I) (pre post : List (Rule I O))
    (matcher : Matcher I) (input : I)
    (hpre : ∀ rule ∈ pre, rule.matcher.matches input = false)
    (hm : matcher.matches input = true) :
    record_call_and_find_mock_output
        (Mock.mk name logs (pre ++ Rule.mk matcher Behavior.CallsRealImpl :: post)) input =
      (.ok none,
       Mock.mk name (logs ++ [input])
         (pre ++ Rule.mk matcher Behavior.CallsRealImpl :: post)) := by
  have hhead : scanRules input (Rule.mk matcher Behavior.CallsRealImpl :: post) =
      .Done none (Rule.mk matcher Behavior.CallsRealImpl :: post) := by
    simp [scanRules, Rule.called, hm]
  have hscan := scanRules_append_reject input pre
    (Rule.mk matcher Behavior.CallsRealImpl :: post) hpre
  rw [hhead] at hscan
  simp [record_call_and_find_mock_output, hscan]

/-- Witness for C4: a first rule matching only `9` is skipped, the
`CallsRealImpl` rule matching `3` defers the call `3`, and the log records
the call. -/
theorem C4_calls_real_impl_defers_witness :
    ((Matcher.Eq 3).matches (3 : Nat) = true) ∧
    record_call_and_find_mock_output
        (Mock.mk "a" ([] : List Nat)
          ([Rule.mk (Matcher.Eq 9) (Behavior.Function fun n => n)] ++
            Rule.mk (Matcher.Eq 3) Behavior.CallsRealImpl :: [])) 3 =
      (.ok none,
       Mock.mk "a" ([] ++ [3])
         ([Rule.mk (Matcher.Eq 9) (Behavior.Function fun n => n)] ++
           Rule.mk (Matcher.Eq 3) Behavior.CallsRealImpl :: [])) := by
  have h : ∀ rule ∈ [Rule.mk (Matcher.Eq 9) ((Behavior.Function fun n => n) : Behavior Nat Nat)],
      rule.matcher.matches 3 = false := by
    intro rule hrule
    rcases List.mem_cons.mp hrule with h1 | hrule
    · subst h1; rfl
    · cases hrule
  exact ⟨rfl, C4_calls_real_impl_defers "a" [] _ [] (Matcher.Eq 3) 3 h rfl⟩

theorem dispatchList_logs {I O : Type} [DecidableEq I]
    (m : Mock I O) (inputs : List I) :
    (dispatchList m inputs).logs = m.logs ++ inputs := by
  induction inputs generalizing m with
  | nil => simp [dispatchList]
  | cons i is ih =>
    rw [dispatchList, ih, logs_record_call]
    simp

theorem dispatchList_name {I O : Type} [DecidableEq I]
    (m : Mock I O) (inputs : List I) :
    (dispatchList m inputs).name = m.name := by
  induction inputs generalizing m with
  | nil => rfl
  | cons i is ih => rw [dispatchList, ih, name_record_call]

/-- Claim C5 (amended): whenever at least one log entry is accepted by the
matcher, `assert_called` returns a `MockResult` carrying the mock's name
and exactly the subsequence of log entries the matcher accepts, in their
original (call) order; the `Any` matcher accepts every entry, and
dispatching a list of inputs appends them to the log in call order — so
after `N` dispatch calls on a fresh mock with `N ≥ 1`, `assert_called Any`
returns a result whose log is the `N` calls in order. (The unamended claim
fails when the matcher accepts no entry: the code then panics instead of
returning, see the counterexample.) -/
theorem C5_assert_called_returns_matched_subsequence {I O : Type}
    [DecidableEq I] (m : Mock I O) (matcher : Matcher I)
    (h : filter_matches m.logs matcher ≠ []) :
    (assert_called m matcher).1 =
      .ok { name := m.name, logs := filter_matches m.logs matcher } ∧
    List.Sublist (filter_matches m.logs matcher) m.logs ∧
    (∀ x, x ∈ filter_matches m.logs matcher ↔
      x ∈ m.logs ∧ matcher.matches x = true) ∧
    (∀ logs : List I, filter_matches logs (Matcher.Any : Matcher I) = logs) ∧
    (∀ (m₀ : Mock I O) (inputs : List I),
      (dispatchList m₀ inputs).logs = m₀.logs ++ inputs) := by
  refine ⟨?_, ?_, ?_, ?_, fun m₀ inputs => dispatchList_logs m₀ inputs⟩
  · simp [assert_called, handle_assert_called, h]
  · exact List.filter_sublist m.logs
  · intro x
    simp [filter_matches, List.mem_filter]
  · intro logs
    simp [filter_matches, Matcher.matches]

/-- Witness for C5 (amended), following the source test
`assert_called_returns_logs_matching`: after the calls `2, 3, 3, 2`,
asserting `Eq 2` returns the result named `"a"` with logs `[2, 2]`. -/
theorem C5_assert_called_returns_matched_subsequence_witness :
    (filter_matches [2, 3, 3, 2] (Matcher.Eq 2) ≠ []) ∧
    (assert_called (Mock.mk "a" [2, 3, 3, 2] ([] : List (Rule Nat Nat)))
        (Matcher.Eq 2)).1 = .ok (MockResult.mk "a" [2, 2]) :=
  ⟨by decide,
   (C5_assert_called_returns_matched_subsequence
     (Mock.mk "a" [2, 3, 3, 2] ([] : List (Rule Nat Nat))) (Matcher.Eq 2)
     (by decide)).1⟩

/-- Counterexample to C5 as stated: after `N = 0` dispatch calls on a
configured mock, `assert_called` with the match-everything matcher does not
return a `MockResult` of log length `0` — it fails (the Rust code panics;
here the `NotCalled` error value), so the universally quantified claim "for
every log state `assert_called` returns a `MockResult` ..." is false. -/
theorem C5_assert_called_counterexample :
    (assert_called
        (Mock.mk "a" ([] : List Nat)
          [Rule.mk Matcher.Any (Behavior.Const (repeatSeq (0 : Nat)))])
        Matcher.Any).1 =
      .error (.NotCalled "a" []) := rfl

/-- Claim C6: when the matcher accepts none of the logged calls (also when
the log is empty), `assert_called` fails instead of returning, and the
failure carries the mock's name together with the entire unfiltered log
(the data rendered by `panic!("{} was not called\n{:?}", self.name,
*self.logs.lock())`). -/
theorem C6_assert_called_no_match_fails {I O : Type} [DecidableEq I]
    (m : Mock I O) (matcher : Matcher I)
    (h : filter_matches m.logs matcher = []) :
    (assert_called m matcher).1 = .error (.NotCalled m.name m.logs) := by
  simp [assert_called, handle_assert_called, h]

/-- Witness for C6, following the source test `assert_called_with_log`:
after the calls `1, 2, 2`, asserting `Eq 3` fails with the name `"a"` and
the full log `[1, 2, 2]`. -/
theorem C6_assert_called_no_match_fails_witness :
    (filter_matches [1, 2, 2] (Matcher.Eq 3) = []) ∧
    (assert_called (Mock.mk "a" [1, 2, 2] ([] : List (Rule Nat Nat)))
        (Matcher.Eq 3)).1 = .error (.NotCalled "a" [1, 2, 2]) :=
  ⟨rfl,
   C6_assert_called_no_match_fails
     (Mock.mk "a" [1, 2, 2] ([] : List (Rule Nat Nat))) (Matcher.Eq 3) rfl⟩

theorem dispatch_repeat_const {I O : Type} [DecidableEq I]
    (name : String) (logs : List I) (base : List (Rule I O)) (j : Nat)
    (v : O) (matcher : Matcher I) (input : I)
    (hbase : ∀ rule ∈ base, rule.matcher.matches input = false)
    (hm : matcher.matches input = true) :
    record_call_and_find_mock_output
        (Mock.mk name logs
          (base ++ [Rule.mk matcher (Behavior.Const ⟨fun _ => some v, j⟩)])) input =
      (.ok (some v),
       Mock.mk name (logs ++ [input])
         (base ++ [Rule.mk matcher (Behavior.Const ⟨fun _ => some v, j + 1⟩)])) := by
  have hhead : scanRules input
      [Rule.mk matcher (Behavior.Const ⟨fun _ => some v, j⟩)] =
      .Done (some v) [Rule.mk matcher (Behavior.Const ⟨fun _ => some v, j + 1⟩)] := by
    simp [scanRules, Rule.called, hm, ConstSeq.next]
  have hscan := scanRules_append_reject input base
    [Rule.mk matcher (Behavior.Const ⟨fun _ => some v, j⟩)] hbase
  rw [hhead] at hscan
  simp [record_call_and_find_mock_output, hscan]

theorem repeat_const_dispatchIter {I O : Type} [DecidableEq I]
    (m : Mock I O) (matcher : Matcher I) (v : O) (input : I)
    (hbase : ∀ rule ∈ m.rules, rule.matcher.matches input = false)
    (hm : matcher.matches input = true) :
    ∀ n : Nat, ∃ logs' : List I,
      dispatchIter (returns m matcher v) input n =
        (.ok (some v),
         Mock.mk m.name logs'
           (m.rules ++ [Rule.mk matcher (Behavior.Const ⟨fun _ => some v, n + 1⟩)])) := by
  intro n
  induction n with
  | zero =>
    refine ⟨m.logs ++ [input], ?_⟩
    have := dispatch_repeat_const m.name m.logs m.rules 0 v matcher input hbase hm
    simpa [dispatchIter, returns, returns_with, repeatSeq] using this
  | succ n ih =>
    obtain ⟨logs', hlogs⟩ := ih
    refine ⟨logs' ++ [input], ?_⟩
    rw [dispatchIter, hlogs]
    exact dispatch_repeat_const m.name logs' m.rules (n + 1) v matcher input hbase hm

/-- Claim C7: a rule registered via `returns(matcher, v)` holds the
infinitely repeating constant sequence `repeat(v)`; if that rule is the
one that handles the input (every previously registered rule rejects it and
`matcher` accepts it), then every repeated matching call — the first, and
after it the `n`-th for every `n` — returns `Some v` with `v` unchanged:
the backing sequence never exhausts and the value is not consumed. -/
theorem C7_returns_const_repeats_value {I O : Type} [DecidableEq I]
    (m : Mock I O) (matcher : Matcher I) (v : O) (input : I)
    (hbase : ∀ rule ∈ m.rules, rule.matcher.matches input = false)
    (hm : matcher.matches input = true) :
    ∀ n : Nat, (dispatchIter (returns m matcher v) input n).1 = .ok (some v) := by
  intro n
  obtain ⟨logs', hlogs⟩ :=
    repeat_const_dispatchIter m matcher v input hbase hm n
  rw [hlogs]

/-- Witness for C7: a fresh mock configured with `returns(Any, 5)` answers
`Some 5` on the third dispatch of `7` (and, via the theorem, on every
other). -/
theorem C7_returns_const_repeats_value_witness :
    ((Matcher.Any : Matcher Nat).matches 7 = true) ∧
    (dispatchIter (returns (Mock.new "a" : Mock Nat Nat) Matcher.Any 5) 7 2).1 =
      .ok (some 5) :=
  ⟨rfl,
   C7_returns_const_repeats_value (Mock.new "a") Matcher.Any 5 7
     (by simp [Mock.new]) rfl 2⟩

/-- Claim C10: `assert_called` is read-only on the mock — it takes `&self`
and only reads the log mutex — so the mock state after it is the input
state (same log, same rules, same name), two consecutive `assert_called`
calls with the same matcher and no intervening dispatch return equal
results, and a later dispatch behaves exactly as it would have without the
assertion. -/
theorem C10_assert_called_read_only {I O : Type} [DecidableEq I]
    (m : Mock I O) (matcher : Matcher I) :
    (assert_called m matcher).2 = m ∧
    (assert_called (assert_called m matcher).2 matcher).1 =
      (assert_called m matcher).1 ∧
    ∀ input : I,
      record_call_and_find_mock_output (assert_called m matcher).2 input =
        record_call_and_find_mock_output m input :=
  ⟨rfl, rfl, fun _ => rfl⟩

/-! The call-count predicate `Times` (src/mry/src/mock_locator/times.rs). -/

/-- The `std::ops::Bound<u64>` values used by `Times::Range`. Counts are
embedded as `Nat` (only order comparisons occur, so no wrap-around
arises). -/
inductive Bound where
  | Included (n : Nat) : Bound
  | Excluded (n : Nat) : Bound
  | Unbounded : Bound

/-- The start-bound side of the standard library's
`RangeBounds::contains`: `Included(start)` → `start <= item`,
`Excluded(start)` → `start < item`, `Unbounded` → no constraint. -/
def Bound.lowerCheck : Bound → Nat → Bool
  | .Included n, count => decide (n ≤ count)
  | .Excluded n, count => decide (n < count)
  | .Unbounded, _ => true

/-- The end-bound side of the standard library's `RangeBounds::contains`:
`Included(end)` → `item <= end`, `Excluded(end)` → `item < end`,
`Unbounded` → no constraint. -/
def Bound.upperCheck : Bound → Nat → Bool
  | .Included n, count => decide (count ≤ n)
  | .Excluded n, count => decide (count < n)
  | .Unbounded, _ => true

/-- The `Times` enum of src/mry/src/mock_locator/times.rs: an exact count
or a pair of bounds. -/
inductive Times where
  | Exact (n : Nat) : Times
  | Range (b : Bound × Bound) : Times

/-- `Times::contains` from src/mry/src/mock_locator/times.rs: `Exact(n)`
compares for equality; `Range(range)` defers to `RangeBounds::contains`,
which checks the two bounds independently and conjoins them. -/
def Times.contains : Times → Nat → Bool
  | .Exact n, count => decide (count = n)
  | .Range (lo, hi), count => lo.lowerCheck count && hi.upperCheck count

/-- Interval membership as the claim words it, lower end: `Included` is
inclusive, `Excluded` is exclusive, `Unbounded` imposes no constraint. -/
def Bound.lowerSpec : Bound → Nat → Prop
  | .Included n, count => n ≤ count
  | .Excluded n, count => n < count
  | .Unbounded, _ => True

/-- Interval membership as the claim words it, upper end. -/
def Bound.upperSpec : Bound → Nat → Prop
  | .Included n, count => count ≤ n
  | .Excluded n, count => count < n
  | .Unbounded, _ => True

/-- Claim C8: `Times::Exact(n).contains(c)` holds iff `c = n`, and
`Times::Range((lower, upper)).contains(c)` holds iff `c` satisfies both
bounds under the standard semantics evaluated independently on each end;
in particular `Exact 2` accepts `2` and rejects `1` and `3`, and the pair
`(Included 2, Excluded 4)` accepts `2` and `3` and rejects `1` and `4`. -/
theorem C8_times_contains_semantics :
    (∀ n count : Nat, (Times.Exact n).contains count = true ↔ count = n) ∧
    (∀ (lo hi : Bound) (count : Nat),
      (Times.Range (lo, hi)).contains count = true ↔
        lo.lowerSpec count ∧ hi.upperSpec count) ∧
    ((Times.Exact 2).contains 2 = true ∧
     (Times.Exact 2).contains 1 = false ∧
     (Times.Exact 2).contains 3 = false) ∧
    ((Times.Range (.Included 2, .Excluded 4)).contains 2 = true ∧
     (Times.Range (.Included 2, .Excluded 4)).contains 3 = true ∧
     (Times.Range (.Included 2, .Excluded 4)).contains 1 = false ∧
     (Times.Range (.Included 2, .Excluded 4)).contains 4 = false) := by
  refine ⟨?_, ?_, by decide, by decide⟩
  · intro n count
    simp [Times.contains]
  · intro lo hi count
    cases lo <;> cases hi <;>
      simp [Times.contains, Bound.lowerCheck, Bound.upperCheck,
        Bound.lowerSpec, Bound.upperSpec]

/-! The composite tuple matchers generated by
src/mry_macros/src/create_matchers.rs for arities 0 through 5. -/

/-- Modelled from the spec (§3, §4.1): the per-position `ArgMatcher<T>` type
is not among the provided sources; the generated code consults only its
boolean `matches` method, so it is embedded as that predicate. -/
structure ArgMatcher (A : Type) where
  pred : A → Bool

/-- The `matches` method of a per-position matcher (spec §4.1: a pure
predicate of the argument value). -/
def ArgMatcher.matches {A : Type} (m : ArgMatcher A) (a : A) : Bool :=
  m.pred a

/-- The arity-0 impl generated by `create`: the matcher tuple and the
argument tuple are both empty and the body is the empty conjunction
`true`. -/
def tupleMatches0 (_m : Unit) (_args : Unit) : Bool :=
  true

/-- The arity-1 impl generated by `create`:
`self.0.matches(a) && true`. -/
def tupleMatches1 {A : Type} (m : ArgMatcher A) (args : A) : Bool :=
  m.matches args && true

/-- The arity-2 impl generated by `create`:
`self.0.matches(a) && self.1.matches(b) && true`. -/
def tupleMatches2 {A B : Type} (m : ArgMatcher A × ArgMatcher B)
    (args : A × B) : Bool :=
  m.1.matches args.1 && m.2.matches args.2 && true

/-- The arity-3 impl generated by `create`. -/
def tupleMatches3 {A B C : Type}
    (m : ArgMatcher A × ArgMatcher B × ArgMatcher C)
    (args : A × B × C) : Bool :=
  m.1.matches args.1 && m.2.1.matches args.2.1 && m.2.2.matches args.2.2 && true

/-- The arity-4 impl generated by `create`. -/
def tupleMatches4 {A B C D : Type}
    (m : ArgMatcher A × ArgMatcher B × ArgMatcher C × ArgMatcher D)
    (args : A × B × C × D) : Bool :=
  m.1.matches args.1 && m.2.1.matches args.2.1 &&
    m.2.2.1.matches args.2.2.1 && m.2.2.2.matches args.2.2.2 && true

/-- The arity-5 impl generated by `create`. -/
def tupleMatches5 {A B C D E : Type}
    (m : ArgMatcher A × ArgMatcher B × ArgMatcher C × ArgMatcher D × ArgMatcher E)
    (args : A × B × C × D × E) : Bool :=
  m.1.matches args.1 && m.2.1.matches args.2.1 &&
    m.2.2.1.matches args.2.2.1 && m.2.2.2.1.matches args.2.2.2.1 &&
    m.2.2.2.2.matches args.2.2.2.2 && true

/-- Claim C9: for every arity 0 through 5, the composite tuple matcher
built from the per-position matchers accepts an argument tuple iff every
position's matcher accepts the corresponding component (logical AND over
the positions); at arity 0 it trivially accepts the empty tuple. -/
theorem C9_tuple_matcher_is_positionwise_and :
    (∀ m args : Unit, tupleMatches0 m args = true) ∧
    (∀ (A : Type) (m : ArgMatcher A) (args : A),
      tupleMatches1 m args = true ↔ m.matches args = true) ∧
    (∀ (A B : Type) (m : ArgMatcher A × ArgMatcher B) (args : A × B),
      tupleMatches2 m args = true ↔
        m.1.matches args.1 = true ∧ m.2.matches args.2 = true) ∧
    (∀ (A B C : Type) (m : ArgMatcher A × ArgMatcher B × ArgMatcher C)
        (args : A × B × C),
      tupleMatches3 m args = true ↔
        m.1.matches args.1 = true ∧ m.2.1.matches args.2.1 = true ∧
          m.2.2.matches args.2.2 = true) ∧
    (∀ (A B C D : Type)
        (m : ArgMatcher A × ArgMatcher B × ArgMatcher C × ArgMatcher D)
        (args : A × B × C × D),
      tupleMatches4 m args = true ↔
        m.1.matches args.1 = true ∧ m.2.1.matches args.2.1 = true ∧
          m.2.2.1.matches args.2.2.1 = true ∧ m.2.2.2.matches args.2.2.2 = true) ∧
    (∀ (A B C D E : Type)
        (m : ArgMatcher A × ArgMatcher B × ArgMatcher C × ArgMatcher D × ArgMatcher E)
        (args : A × B × C × D × E),
      tupleMatches5 m args = true ↔
        m.1.matches args.1 = true ∧ m.2.1.matches args.2.1 = true ∧
          m.2.2.1.matches args.2.2.1 = true ∧
          m.2.2.2.1.matches args.2.2.2.1 = true ∧
          m.2.2.2.2.matches args.2.2.2.2 = true) := by
  refine ⟨fun _ _ => rfl, ?_, ?_, ?_, ?_, ?_⟩ <;>
    intros <;>
    simp [tupleMatches1, tupleMatches2, tupleMatches3, tupleMatches4,
      tupleMatches5, Bool.and_eq_true, and_assoc]

end Mry
